import Mathlib

/-!
Shallow embedding of `src/middleware.ts` (a fixed-window, per-key rate
limiter for API routes), together with proofs of the specification's
claims about it.

Modelling choices:
* `Date.now()` timestamps are `Nat` milliseconds, supplied explicitly.
* The module-level `rateLimitStore : Map<string, {count, resetTime}>` is a
  total function `String → Option WindowRecord`; `Map.set` is pointwise
  update, and the in-place `record.count++` is the same update with the
  incremented count.
* JavaScript string operations are modelled on the character list:
  `forwarded.split(",")[0]` is the characters before the first comma
  (`splitFirst`), and `pathname.startsWith("/api/")` is a prefix test on
  the first five characters (`isApiPath`).
* JS truthiness: `forwarded ? a : b` takes `b` when the header is absent
  or the empty string, and `request.ip || "unknown"` yields `"unknown"`
  when `request.ip` is absent or empty.
* `Date#toISOString` is injective on millisecond timestamps, so an ISO
  header value is modelled by the underlying millisecond value.
* The `RATE_LIMIT` configuration object is a structure so that claims
  stated for general `windowMs = W` / `maxRequests = M` can quantify over
  it; the source's constant is the `RATE_LIMIT` value below.
-/

/-- One entry of `rateLimitStore`: `{ count: number; resetTime: number }`
(middleware.ts line 5). -/
structure WindowRecord where
  count : Nat
  resetTime : Nat
deriving DecidableEq, Repr

/-- The in-memory store `rateLimitStore` (middleware.ts line 5), as a map
from key to the record stored under it. -/
def Store := String → Option WindowRecord

/-- The store at process start: no key has a record. -/
def emptyStore : Store := fun _ => none

/-- `rateLimitStore.set(key, r)` (middleware.ts lines 27-30): pointwise
update of the map. -/
def setRecord (s : Store) (key : String) (r : WindowRecord) : Store :=
  fun k => if k = key then some r else s k

/-- The shape of the `RATE_LIMIT` configuration object
(middleware.ts lines 8-12). -/
structure RateLimitConfig where
  windowMs : Nat
  maxRequests : Nat
  skipSuccessfulRequests : Bool
deriving DecidableEq, Repr

/-- The configuration constant of middleware.ts lines 8-12:
a one-minute window of 100 requests. -/
def RATE_LIMIT : RateLimitConfig :=
  { windowMs := 60 * 1000, maxRequests := 100, skipSuccessfulRequests := false }

/-- `forwarded.split(",")[0]` (middleware.ts line 17): the characters of
the string strictly before its first comma (the whole string when it has
no comma; `""` on the empty string, as in JS where `"".split(",")[0]`
is `""`). -/
def splitFirst (s : String) : String :=
  (s.data.takeWhile (fun c => c ≠ ',')).asString

/-- `request.ip || "unknown"` (middleware.ts line 17): the connection
address when present and truthy, else the literal `"unknown"`. -/
def ipOrUnknown (ip : Option String) : String :=
  match ip with
  | some i => if i = "" then "unknown" else i
  | none => "unknown"

/-- `getRateLimitKey` (middleware.ts lines 14-19). `forwarded` is the
value of the `x-forwarded-for` header (`none` when the header is absent),
`ip` is `request.ip`. The JS conditional `forwarded ? ... : ...` tests
truthiness, so an empty header string falls through to `request.ip`. -/
def getRateLimitKey (forwarded ip : Option String) : String :=
  let client :=
    match forwarded with
    | some f => if f = "" then ipOrUnknown ip else splitFirst f
    | none => ipOrUnknown ip
  "rate_limit:" ++ client

/-- `isRateLimited` (middleware.ts lines 21-40), with the store passed and
returned explicitly; returns the boolean of the source (true = limited)
and the store after the call. The source's single test
`!record || now > record.resetTime` is split over the two match arms. -/
def isRateLimited (cfg : RateLimitConfig) (now : Nat) (key : String) (s : Store) :
    Bool × Store :=
  match s key with
  | none =>
    (false, setRecord s key { count := 1, resetTime := now + cfg.windowMs })
  | some record =>
    if now > record.resetTime then
      (false, setRecord s key { count := 1, resetTime := now + cfg.windowMs })
    else if record.count ≥ cfg.maxRequests then
      (true, s)
    else
      (false, setRecord s key { count := record.count + 1, resetTime := record.resetTime })

/-- The decision data one call makes observable (spec section 4):
the admission bit of `isRateLimited` together with the `remaining` and
reset values the middleware reports for that call. -/
structure Decision where
  admitted : Bool
  remaining : Nat
  resetTime : Nat
deriving DecidableEq, Repr

/-- One evaluation for a key: `isRateLimited` plus the values the
middleware derives from its outcome. On rejection the middleware reports
`remaining = 0` and reset `now + windowMs` (middleware.ts lines 59-60);
on admission it reports `maxRequests - record.count` and the record's
`resetTime` from the post-call store (lines 67-72). The `none` arm mirrors
middleware.ts line 74 falling through with no rate-limit data (it is in
fact unreachable after an admission; zeros are its placeholder values). -/
def evaluate (cfg : RateLimitConfig) (now : Nat) (key : String) (s : Store) :
    Decision × Store :=
  let res := isRateLimited cfg now key s
  if res.1 then
    ({ admitted := false, remaining := 0, resetTime := now + cfg.windowMs }, res.2)
  else
    match res.2 key with
    | some record =>
      ({ admitted := true, remaining := cfg.maxRequests - record.count,
         resetTime := record.resetTime }, res.2)
    | none =>
      ({ admitted := true, remaining := 0, resetTime := 0 }, res.2)

/-- `request.nextUrl.pathname.startsWith("/api/")` (middleware.ts
line 44): the first five characters of the path are `/api/`. -/
def isApiPath (path : String) : Bool :=
  path.data.take 5 = "/api/".data

/-- The fields of the middleware's response that the rate limiter
determines. `bodyRetryAfter` is the JSON body's `retryAfter` field;
the header fields are `Retry-After`, `X-RateLimit-Limit`,
`X-RateLimit-Remaining` and `X-RateLimit-Reset` (`none` = header absent;
reset headers modelled by the millisecond value inside the ISO string). -/
structure ApiResponse where
  status : Nat
  bodyRetryAfter : Option Nat
  retryAfterHeader : Option Nat
  limitHeader : Option Nat
  remainingHeader : Option Nat
  resetHeader : Option Nat
deriving DecidableEq, Repr

/-- `middleware` (middleware.ts lines 42-94) restricted to the fields of
`ApiResponse`: on an API path, reject with a 429 carrying the static
retry values (lines 47-64), or pass through with the record-derived
headers (lines 66-74); the final arm is the plain fall-through response
(lines 77-93), which sets no rate-limit fields. `Math.ceil(windowMs /
1000)` is the rounded-up division `(windowMs + 999) / 1000`. -/
def middleware (cfg : RateLimitConfig) (now : Nat) (path : String)
    (forwarded ip : Option String) (s : Store) : ApiResponse × Store :=
  if isApiPath path then
    let key := getRateLimitKey forwarded ip
    let res := isRateLimited cfg now key s
    if res.1 then
      ({ status := 429,
         bodyRetryAfter := some ((cfg.windowMs + 999) / 1000),
         retryAfterHeader := some ((cfg.windowMs + 999) / 1000),
         limitHeader := some cfg.maxRequests,
         remainingHeader := some 0,
         resetHeader := some (now + cfg.windowMs) }, res.2)
    else
      match res.2 key with
      | some record =>
        ({ status := 200,
           bodyRetryAfter := none,
           retryAfterHeader := none,
           limitHeader := some cfg.maxRequests,
           remainingHeader := some (cfg.maxRequests - record.count),
           resetHeader := some record.resetTime }, res.2)
      | none =>
        ({ status := 200, bodyRetryAfter := none, retryAfterHeader := none,
           limitHeader := none, remainingHeader := none, resetHeader := none }, res.2)
  else
    ({ status := 200, bodyRetryAfter := none, retryAfterHeader := none,
       limitHeader := none, remainingHeader := none, resetHeader := none }, s)

/-- The store after `i` successive evaluations for one key, the `j`-th
evaluation (0-indexed) occurring at time `ts j`. -/
def stepN (cfg : RateLimitConfig) (key : String) (ts : Nat → Nat) (s : Store) :
    Nat → Store
  | 0 => s
  | i + 1 => (evaluate cfg (ts i) key (stepN cfg key ts s i)).2

/-- The decision of the `i`-th evaluation (0-indexed) in the run of
`stepN`. -/
def decN (cfg : RateLimitConfig) (key : String) (ts : Nat → Nat) (s : Store)
    (i : Nat) : Decision :=
  (evaluate cfg (ts i) key (stepN cfg key ts s i)).1

/-- Run a sequence of calls to `isRateLimited`, each a (time, key) pair. -/
def runSteps (cfg : RateLimitConfig) (steps : List (Nat × String)) (s : Store) :
    Store :=
  match steps with
  | [] => s
  | (now, key) :: rest => runSteps cfg rest (isRateLimited cfg now key s).2

/-- Every record in the store has a count between 1 and the configured
maximum. -/
def StoreInv (cfg : RateLimitConfig) (s : Store) : Prop :=
  ∀ k r, s k = some r → 1 ≤ r.count ∧ r.count ≤ cfg.maxRequests

/-- The constant time sequence (every evaluation at time `n`). -/
def constTime (n : Nat) : Nat → Nat := fun _ => n

theorem setRecord_self (s : Store) (key : String) (r : WindowRecord) :
    setRecord s key r key = some r := by
  simp [setRecord]

theorem setRecord_other (s : Store) (key : String) (r : WindowRecord)
    (k : String) (h : k ≠ key) : setRecord s key r k = s k := by
  simp [setRecord, h]

theorem isRateLimited_none (cfg : RateLimitConfig) (now : Nat) (key : String)
    (s : Store) (h : s key = none) :
    isRateLimited cfg now key s =
      (false, setRecord s key { count := 1, resetTime := now + cfg.windowMs }) := by
  simp [isRateLimited, h]

theorem isRateLimited_expired (cfg : RateLimitConfig) (now : Nat) (key : String)
    (s : Store) (r : WindowRecord) (h : s key = some r) (hx : r.resetTime < now) :
    isRateLimited cfg now key s =
      (false, setRecord s key { count := 1, resetTime := now + cfg.windowMs }) := by
  simp [isRateLimited, h, hx]

theorem isRateLimited_full (cfg : RateLimitConfig) (now : Nat) (key : String)
    (s : Store) (r : WindowRecord) (h : s key = some r)
    (hlive : now ≤ r.resetTime) (hfull : cfg.maxRequests ≤ r.count) :
    isRateLimited cfg now key s = (true, s) := by
  simp only [isRateLimited, h]
  rw [if_neg (by omega), if_pos hfull]

theorem isRateLimited_incr (cfg : RateLimitConfig) (now : Nat) (key : String)
    (s : Store) (r : WindowRecord) (h : s key = some r)
    (hlive : now ≤ r.resetTime) (hroom : r.count < cfg.maxRequests) :
    isRateLimited cfg now key s =
      (false, setRecord s key { count := r.count + 1, resetTime := r.resetTime }) := by
  simp only [isRateLimited, h]
  rw [if_neg (by omega), if_neg (by omega)]

theorem evaluate_none (cfg : RateLimitConfig) (now : Nat) (key : String)
    (s : Store) (h : s key = none) :
    evaluate cfg now key s =
      ({ admitted := true, remaining := cfg.maxRequests - 1,
         resetTime := now + cfg.windowMs },
       setRecord s key { count := 1, resetTime := now + cfg.windowMs }) := by
  simp [evaluate, isRateLimited_none cfg now key s h, setRecord_self]

theorem evaluate_expired (cfg : RateLimitConfig) (now : Nat) (key : String)
    (s : Store) (r : WindowRecord) (h : s key = some r) (hx : r.resetTime < now) :
    evaluate cfg now key s =
      ({ admitted := true, remaining := cfg.maxRequests - 1,
         resetTime := now + cfg.windowMs },
       setRecord s key { count := 1, resetTime := now + cfg.windowMs }) := by
  simp [evaluate, isRateLimited_expired cfg now key s r h hx, setRecord_self]

theorem evaluate_full (cfg : RateLimitConfig) (now : Nat) (key : String)
    (s : Store) (r : WindowRecord) (h : s key = some r)
    (hlive : now ≤ r.resetTime) (hfull : cfg.maxRequests ≤ r.count) :
    evaluate cfg now key s =
      ({ admitted := false, remaining := 0, resetTime := now + cfg.windowMs }, s) := by
  simp [evaluate, isRateLimited_full cfg now key s r h hlive hfull]

theorem evaluate_incr (cfg : RateLimitConfig) (now : Nat) (key : String)
    (s : Store) (r : WindowRecord) (h : s key = some r)
    (hlive : now ≤ r.resetTime) (hroom : r.count < cfg.maxRequests) :
    evaluate cfg now key s =
      ({ admitted := true, remaining := cfg.maxRequests - (r.count + 1),
         resetTime := r.resetTime },
       setRecord s key { count := r.count + 1, resetTime := r.resetTime }) := by
  simp [evaluate, isRateLimited_incr cfg now key s r h hlive hroom, setRecord_self]

theorem isRateLimited_none_snd (cfg : RateLimitConfig) (now : Nat) (key : String)
    (s : Store) (h : s key = none) :
    (isRateLimited cfg now key s).2 =
      setRecord s key { count := 1, resetTime := now + cfg.windowMs } := by
  rw [isRateLimited_none cfg now key s h]

theorem isRateLimited_expired_snd (cfg : RateLimitConfig) (now : Nat) (key : String)
    (s : Store) (r : WindowRecord) (h : s key = some r) (hx : r.resetTime < now) :
    (isRateLimited cfg now key s).2 =
      setRecord s key { count := 1, resetTime := now + cfg.windowMs } := by
  rw [isRateLimited_expired cfg now key s r h hx]

theorem isRateLimited_full_snd (cfg : RateLimitConfig) (now : Nat) (key : String)
    (s : Store) (r : WindowRecord) (h : s key = some r)
    (hlive : now ≤ r.resetTime) (hfull : cfg.maxRequests ≤ r.count) :
    (isRateLimited cfg now key s).2 = s := by
  rw [isRateLimited_full cfg now key s r h hlive hfull]

theorem isRateLimited_incr_snd (cfg : RateLimitConfig) (now : Nat) (key : String)
    (s : Store) (r : WindowRecord) (h : s key = some r)
    (hlive : now ≤ r.resetTime) (hroom : r.count < cfg.maxRequests) :
    (isRateLimited cfg now key s).2 =
      setRecord s key { count := r.count + 1, resetTime := r.resetTime } := by
  rw [isRateLimited_incr cfg now key s r h hlive hroom]

theorem evaluate_store_other (cfg : RateLimitConfig) (now : Nat) (key : String)
    (s : Store) (k : String) (h : k ≠ key) :
    (evaluate cfg now key s).2 k = s k := by
  cases hA : s key with
  | none =>
    rw [evaluate_none cfg now key s hA]
    exact setRecord_other s key _ k h
  | some r =>
    by_cases hx : r.resetTime < now
    · rw [evaluate_expired cfg now key s r hA hx]
      exact setRecord_other s key _ k h
    · by_cases hc : cfg.maxRequests ≤ r.count
      · rw [evaluate_full cfg now key s r hA (by omega) hc]
      · rw [evaluate_incr cfg now key s r hA (by omega) (by omega)]
        exact setRecord_other s key _ k h

theorem evaluate_decision_congr (cfg : RateLimitConfig) (now : Nat) (key : String)
    (s1 s2 : Store) (h : s1 key = s2 key) :
    (evaluate cfg now key s1).1 = (evaluate cfg now key s2).1 := by
  cases hA : s2 key with
  | none =>
    rw [evaluate_none cfg now key s1 (h.trans hA), evaluate_none cfg now key s2 hA]
  | some r =>
    by_cases hx : r.resetTime < now
    · rw [evaluate_expired cfg now key s1 r (h.trans hA) hx,
          evaluate_expired cfg now key s2 r hA hx]
    · by_cases hc : cfg.maxRequests ≤ r.count
      · rw [evaluate_full cfg now key s1 r (h.trans hA) (by omega) hc,
            evaluate_full cfg now key s2 r hA (by omega) hc]
      · rw [evaluate_incr cfg now key s1 r (h.trans hA) (by omega) (by omega),
            evaluate_incr cfg now key s2 r hA (by omega) (by omega)]

theorem isRateLimited_false_some (cfg : RateLimitConfig) (now : Nat) (key : String)
    (s : Store) (h : (isRateLimited cfg now key s).1 = false) :
    ∃ r, (isRateLimited cfg now key s).2 key = some r := by
  cases hA : s key with
  | none =>
    rw [isRateLimited_none_snd cfg now key s hA]
    exact ⟨_, setRecord_self s key _⟩
  | some r =>
    by_cases hx : r.resetTime < now
    · rw [isRateLimited_expired_snd cfg now key s r hA hx]
      exact ⟨_, setRecord_self s key _⟩
    · by_cases hc : cfg.maxRequests ≤ r.count
      · rw [isRateLimited_full cfg now key s r hA (by omega) hc] at h
        cases h
      · rw [isRateLimited_incr_snd cfg now key s r hA (by omega) (by omega)]
        exact ⟨_, setRecord_self s key _⟩

theorem stepN_record (cfg : RateLimitConfig) (t0 : Nat) (ts : Nat → Nat)
    (key : String) (s : Store) (h0 : ts 0 = t0)
    (hwin : ∀ i, i ≤ cfg.maxRequests → t0 ≤ ts i ∧ ts i < t0 + cfg.windowMs)
    (hs : s key = none) :
    ∀ i, 1 ≤ i → i ≤ cfg.maxRequests →
      stepN cfg key ts s i key =
        some { count := i, resetTime := t0 + cfg.windowMs } := by
  intro i
  induction i with
  | zero => omega
  | succ n ih =>
    intro _ hle
    rcases Nat.eq_zero_or_pos n with hn | hn
    · subst hn
      show (evaluate cfg (ts 0) key s).2 key = _
      rw [evaluate_none cfg (ts 0) key s hs, h0]
      exact setRecord_self s key _
    · have hrec := ih (by omega) (by omega)
      have hts := hwin n (by omega)
      show (evaluate cfg (ts n) key (stepN cfg key ts s n)).2 key = _
      rw [evaluate_incr cfg (ts n) key (stepN cfg key ts s n)
            { count := n, resetTime := t0 + cfg.windowMs } hrec
            (by show ts n ≤ t0 + cfg.windowMs; omega)
            (by show n < cfg.maxRequests; omega)]
      exact setRecord_self _ key _

theorem isRateLimited_preserves_inv (cfg : RateLimitConfig) (now : Nat)
    (key : String) (s : Store) (hM : 1 ≤ cfg.maxRequests) (hs : StoreInv cfg s) :
    StoreInv cfg (isRateLimited cfg now key s).2 := by
  intro k r hk
  cases hA : s key with
  | none =>
    rw [isRateLimited_none_snd cfg now key s hA] at hk
    by_cases hkey : k = key
    · subst hkey
      rw [setRecord_self] at hk
      injection hk with h2
      subst h2
      exact ⟨Nat.le_refl 1, hM⟩
    · rw [setRecord_other s key _ k hkey] at hk
      exact hs k r hk
  | some r0 =>
    by_cases hx : r0.resetTime < now
    · rw [isRateLimited_expired_snd cfg now key s r0 hA hx] at hk
      by_cases hkey : k = key
      · subst hkey
        rw [setRecord_self] at hk
        injection hk with h2
        subst h2
        exact ⟨Nat.le_refl 1, hM⟩
      · rw [setRecord_other s key _ k hkey] at hk
        exact hs k r hk
    · by_cases hc : cfg.maxRequests ≤ r0.count
      · rw [isRateLimited_full_snd cfg now key s r0 hA (by omega) hc] at hk
        exact hs k r hk
      · rw [isRateLimited_incr_snd cfg now key s r0 hA (by omega) (by omega)] at hk
        by_cases hkey : k = key
        · subst hkey
          rw [setRecord_self] at hk
          injection hk with h2
          subst h2
          refine ⟨?_, ?_⟩
          · show 1 ≤ r0.count + 1
            omega
          · show r0.count + 1 ≤ cfg.maxRequests
            omega
        · rw [setRecord_other s key _ k hkey] at hk
          exact hs k r hk

theorem runSteps_preserves_inv (cfg : RateLimitConfig) (hM : 1 ≤ cfg.maxRequests) :
    ∀ steps s, StoreInv cfg s → StoreInv cfg (runSteps cfg steps s) := by
  intro steps
  induction steps with
  | nil => intro s hs; exact hs
  | cons p rest ih =>
    intro s hs
    exact ih _ (isRateLimited_preserves_inv cfg p.1 p.2 s hM hs)

theorem emptyStore_inv (cfg : RateLimitConfig) : StoreInv cfg emptyStore := by
  intro k r hk
  cases hk

/-- C1: for a fixed key with `windowMs = W` and `maxRequests = M`, starting
from a store holding no record for the key, the first `M` evaluations at
times inside the window `[t0, t0 + W)` are all admitted with remaining
values `M-1, M-2, ..., 0` in that order (the 0-indexed `i`-th decision
reports `M - (i+1)`), and the `(M+1)`-th evaluation in the same window is
rejected with remaining `0`. -/
theorem C1_first_window_admissions (cfg : RateLimitConfig) (t0 : Nat)
    (ts : Nat → Nat) (key : String) (s : Store)
    (hM : 1 ≤ cfg.maxRequests)
    (h0 : ts 0 = t0)
    (hwin : ∀ i, i ≤ cfg.maxRequests → t0 ≤ ts i ∧ ts i < t0 + cfg.windowMs)
    (hs : s key = none) :
    (∀ i, i < cfg.maxRequests →
      (decN cfg key ts s i).admitted = true ∧
      (decN cfg key ts s i).remaining = cfg.maxRequests - (i + 1)) ∧
    (decN cfg key ts s cfg.maxRequests).admitted = false ∧
    (decN cfg key ts s cfg.maxRequests).remaining = 0 := by
  refine ⟨?_, ?_⟩
  · intro i hi
    rcases Nat.eq_zero_or_pos i with h | h
    · subst h
      simp only [decN, stepN]
      rw [evaluate_none cfg (ts 0) key s hs]
      exact ⟨rfl, rfl⟩
    · have hrec := stepN_record cfg t0 ts key s h0 hwin hs i h (by omega)
      have hts := hwin i (by omega)
      simp only [decN]
      rw [evaluate_incr cfg (ts i) key (stepN cfg key ts s i)
            { count := i, resetTime := t0 + cfg.windowMs } hrec
            (by show ts i ≤ t0 + cfg.windowMs; omega)
            (by show i < cfg.maxRequests; omega)]
      exact ⟨rfl, rfl⟩
  · have hrec := stepN_record cfg t0 ts key s h0 hwin hs cfg.maxRequests hM
      (Nat.le_refl _)
    have hts := hwin cfg.maxRequests (Nat.le_refl _)
    simp only [decN]
    rw [evaluate_full cfg (ts cfg.maxRequests) key (stepN cfg key ts s cfg.maxRequests)
          { count := cfg.maxRequests, resetTime := t0 + cfg.windowMs } hrec
          (by show ts cfg.maxRequests ≤ t0 + cfg.windowMs; omega)
          (by show cfg.maxRequests ≤ cfg.maxRequests; omega)]
    exact ⟨rfl, rfl⟩

/-- Witness for C1 at `W = 3`, `M = 2`, all three evaluations at `t = 10`:
remaining values are 1 then 0, and the third evaluation is rejected. -/
theorem C1_witness :
    (decN ⟨3, 2, false⟩ "k" (constTime 10) emptyStore 0).remaining = 1 ∧
    (decN ⟨3, 2, false⟩ "k" (constTime 10) emptyStore 1).remaining = 0 ∧
    (decN ⟨3, 2, false⟩ "k" (constTime 10) emptyStore 2).admitted = false := by
  have h := C1_first_window_admissions ⟨3, 2, false⟩ 10 (constTime 10) "k"
    emptyStore (by decide) rfl (fun i _ => by constructor <;> simp [constTime]) rfl
  exact ⟨(h.1 0 (by decide)).2, (h.1 1 (by decide)).2, h.2.1⟩

/-- C2: for a key whose live record is full (`count ≥ maxRequests`), an
evaluation at or before the record's reset time is rejected and returns
the store completely unchanged (every key's record included), and a
repeated evaluation before expiry is again rejected with the store still
unchanged. -/
theorem C2_reject_no_mutation (cfg : RateLimitConfig) (now now2 : Nat)
    (key : String) (s : Store) (r : WindowRecord)
    (h : s key = some r) (hfull : cfg.maxRequests ≤ r.count)
    (hlive : now ≤ r.resetTime) (hlive2 : now2 ≤ r.resetTime) :
    (evaluate cfg now key s).1.admitted = false ∧
    (evaluate cfg now key s).2 = s ∧
    (evaluate cfg now2 key (evaluate cfg now key s).2).1.admitted = false ∧
    (evaluate cfg now2 key (evaluate cfg now key s).2).2 = s := by
  have e1 := evaluate_full cfg now key s r h hlive hfull
  have e2 := evaluate_full cfg now2 key s r h hlive2 hfull
  have hsnd : (evaluate cfg now key s).2 = s := by rw [e1]
  refine ⟨?_, hsnd, ?_, ?_⟩
  · rw [e1]
  · rw [hsnd, e2]
  · rw [hsnd, e2]

/-- Witness for C2: a full record (`count = 1 = maxRequests`) with reset
time 100, evaluated at times 5 and then 7. -/
theorem C2_witness :
    (evaluate ⟨100, 1, false⟩ 5 "k"
      (setRecord emptyStore "k" { count := 1, resetTime := 100 })).1.admitted = false ∧
    (evaluate ⟨100, 1, false⟩ 5 "k"
      (setRecord emptyStore "k" { count := 1, resetTime := 100 })).2 =
      setRecord emptyStore "k" { count := 1, resetTime := 100 } ∧
    (evaluate ⟨100, 1, false⟩ 7 "k"
      (evaluate ⟨100, 1, false⟩ 5 "k"
        (setRecord emptyStore "k" { count := 1, resetTime := 100 })).2).1.admitted = false ∧
    (evaluate ⟨100, 1, false⟩ 7 "k"
      (evaluate ⟨100, 1, false⟩ 5 "k"
        (setRecord emptyStore "k" { count := 1, resetTime := 100 })).2).2 =
      setRecord emptyStore "k" { count := 1, resetTime := 100 } :=
  C2_reject_no_mutation ⟨100, 1, false⟩ 5 7 "k"
    (setRecord emptyStore "k" { count := 1, resetTime := 100 })
    { count := 1, resetTime := 100 } (by decide) (by decide) (by decide) (by decide)

/-- C3: lazy window rollover. A record with `resetTime = t0 + W` is treated
as absent exactly when `now > resetTime`: an evaluation at `t0 + W + eps`
(`eps > 0`) for a previously exhausted key is admitted with remaining
`M - 1` and reported reset `(t0 + W + eps) + W`, the record being replaced
by a fresh one with `count = 1` and that reset time; at `now = t0 + W`
exactly, the exhausted record is still live and the evaluation is
rejected. -/
theorem C3_window_rollover (cfg : RateLimitConfig) (t0 eps : Nat) (key : String)
    (s : Store) (c : Nat)
    (h : s key = some { count := c, resetTime := t0 + cfg.windowMs })
    (heps : 0 < eps)
    (hfull : cfg.maxRequests ≤ c) :
    (evaluate cfg (t0 + cfg.windowMs + eps) key s).1 =
      { admitted := true, remaining := cfg.maxRequests - 1,
        resetTime := t0 + cfg.windowMs + eps + cfg.windowMs } ∧
    (evaluate cfg (t0 + cfg.windowMs + eps) key s).2 key =
      some { count := 1, resetTime := t0 + cfg.windowMs + eps + cfg.windowMs } ∧
    (evaluate cfg (t0 + cfg.windowMs) key s).1.admitted = false := by
  have e := evaluate_expired cfg (t0 + cfg.windowMs + eps) key s
    { count := c, resetTime := t0 + cfg.windowMs } h
    (by show t0 + cfg.windowMs < t0 + cfg.windowMs + eps; omega)
  refine ⟨?_, ?_, ?_⟩
  · rw [e]
  · rw [e]
    exact setRecord_self s key _
  · rw [evaluate_full cfg (t0 + cfg.windowMs) key s
          { count := c, resetTime := t0 + cfg.windowMs } h
          (by show t0 + cfg.windowMs ≤ t0 + cfg.windowMs; omega)
          (by show cfg.maxRequests ≤ c; omega)]

/-- Witness for C3 at `W = 10`, `M = 2`, `t0 = 5`, `eps = 1`: the call at
16 rolls the window over, the call at exactly 15 is still rejected. -/
theorem C3_witness :
    (evaluate ⟨10, 2, false⟩ 16 "k"
      (setRecord emptyStore "k" { count := 2, resetTime := 15 })).1 =
      { admitted := true, remaining := 1, resetTime := 26 } ∧
    (evaluate ⟨10, 2, false⟩ 16 "k"
      (setRecord emptyStore "k" { count := 2, resetTime := 15 })).2 "k" =
      some { count := 1, resetTime := 26 } ∧
    (evaluate ⟨10, 2, false⟩ 15 "k"
      (setRecord emptyStore "k" { count := 2, resetTime := 15 })).1.admitted = false :=
  C3_window_rollover ⟨10, 2, false⟩ 5 1 "k"
    (setRecord emptyStore "k" { count := 2, resetTime := 15 }) 2
    (by decide) (by decide) (by decide)

/-- C4: key independence. Evaluating key `a` leaves the record of any
distinct key `b` unchanged, and therefore the decision of any later
evaluation for `b` (at any time) is the same as it would have been on the
original store. -/
theorem C4_key_independence (cfg : RateLimitConfig) (now now2 : Nat)
    (a b : String) (s : Store) (hne : a ≠ b) :
    (evaluate cfg now a s).2 b = s b ∧
    (evaluate cfg now2 b ((evaluate cfg now a s).2)).1 =
      (evaluate cfg now2 b s).1 := by
  have h1 := evaluate_store_other cfg now a s b (Ne.symm hne)
  exact ⟨h1, evaluate_decision_congr cfg now2 b _ s h1⟩

/-- Witness for C4 with keys `"a"` and `"b"` on the empty store. -/
theorem C4_witness :
    (evaluate RATE_LIMIT 0 "a" emptyStore).2 "b" = emptyStore "b" ∧
    (evaluate RATE_LIMIT 3 "b" ((evaluate RATE_LIMIT 0 "a" emptyStore).2)).1 =
      (evaluate RATE_LIMIT 3 "b" emptyStore).1 :=
  C4_key_independence RATE_LIMIT 0 3 "a" "b" emptyStore (by decide)

/-- C5 counterexample: the forwarded header can be present as the empty
string; the claim as stated then demands a key based on the header's first
comma-separated entry (which is `""`), but the code's truthiness test
falls through to the connection address instead. -/
theorem C5_counterexample :
    getRateLimitKey (some "") (some "9.9.9.9") = "rate_limit:9.9.9.9" ∧
    getRateLimitKey (some "") (some "9.9.9.9") ≠ "rate_limit:" ++ splitFirst "" := by
  exact ⟨by decide, by decide⟩

/-- C5 (amended): key derivation is a total pure function; if the
forwarded header is present and non-empty the key is based on its first
comma-separated entry regardless of the rest of the list; if it is absent
or empty, the non-empty direct connection address is used; if that too is
absent or empty, the literal `unknown`; the result is always a string with
the fixed prefix `rate_limit:`. -/
theorem C5_key_derivation (f i : String) (ip : Option String)
    (hf : f ≠ "") (hi : i ≠ "") :
    getRateLimitKey (some f) ip = "rate_limit:" ++ splitFirst f ∧
    getRateLimitKey none (some i) = "rate_limit:" ++ i ∧
    getRateLimitKey (some "") (some i) = "rate_limit:" ++ i ∧
    getRateLimitKey none none = "rate_limit:unknown" ∧
    getRateLimitKey (some "") none = "rate_limit:unknown" ∧
    getRateLimitKey none (some "") = "rate_limit:unknown" ∧
    getRateLimitKey (some "") (some "") = "rate_limit:unknown" ∧
    ∀ fo ipo, ∃ c, getRateLimitKey fo ipo = "rate_limit:" ++ c := by
  refine ⟨?_, ?_, ?_, rfl, rfl, rfl, rfl, ?_⟩
  · simp [getRateLimitKey, hf]
  · simp [getRateLimitKey, ipOrUnknown, hi]
  · simp [getRateLimitKey, ipOrUnknown, hi]
  · intro fo ipo
    exact ⟨_, rfl⟩

/-- Witness for C5 on the spec's own example header value. -/
theorem C5_witness :
    getRateLimitKey (some "1.2.3.4, 5.6.7.8") (some "7.7.7.7") =
      "rate_limit:" ++ splitFirst "1.2.3.4, 5.6.7.8" ∧
    getRateLimitKey none none = "rate_limit:unknown" ∧
    splitFirst "1.2.3.4, 5.6.7.8" = "1.2.3.4" := by
  have h := C5_key_derivation "1.2.3.4, 5.6.7.8" "7.7.7.7" (some "7.7.7.7")
    (by decide) (by decide)
  exact ⟨h.1, h.2.2.2.1, by decide⟩

/-- C6: whenever a request on an API path is rejected, the response has
status 429, a body `retryAfter` of `windowMs / 1000` seconds, a
`Retry-After` header with the same static value, `X-RateLimit-Limit`
equal to `maxRequests`, `X-RateLimit-Remaining` 0, and `X-RateLimit-Reset`
the timestamp `now + windowMs` (static, not the stored record's reset
time). -/
theorem C6_reject_response (now : Nat) (path : String) (f ip : Option String)
    (s : Store)
    (hapi : isApiPath path = true)
    (hrej : (isRateLimited RATE_LIMIT now (getRateLimitKey f ip) s).1 = true) :
    (middleware RATE_LIMIT now path f ip s).1.status = 429 ∧
    (middleware RATE_LIMIT now path f ip s).1.bodyRetryAfter =
      some (RATE_LIMIT.windowMs / 1000) ∧
    (middleware RATE_LIMIT now path f ip s).1.retryAfterHeader =
      some (RATE_LIMIT.windowMs / 1000) ∧
    (middleware RATE_LIMIT now path f ip s).1.limitHeader =
      some RATE_LIMIT.maxRequests ∧
    (middleware RATE_LIMIT now path f ip s).1.remainingHeader = some 0 ∧
    (middleware RATE_LIMIT now path f ip s).1.resetHeader =
      some (now + RATE_LIMIT.windowMs) := by
  simp only [middleware, hapi, if_true, hrej]
  exact ⟨trivial, by decide, by decide, trivial, trivial, trivial⟩

/-- Witness for C6: key `rate_limit:unknown` exhausted (count 100) in a
live window, request at time 5 on path `/api/x`. -/
theorem C6_witness :
    (middleware RATE_LIMIT 5 "/api/x" none none
      (setRecord emptyStore "rate_limit:unknown"
        { count := 100, resetTime := 60000 })).1.status = 429 ∧
    (middleware RATE_LIMIT 5 "/api/x" none none
      (setRecord emptyStore "rate_limit:unknown"
        { count := 100, resetTime := 60000 })).1.bodyRetryAfter =
      some (RATE_LIMIT.windowMs / 1000) ∧
    (middleware RATE_LIMIT 5 "/api/x" none none
      (setRecord emptyStore "rate_limit:unknown"
        { count := 100, resetTime := 60000 })).1.retryAfterHeader =
      some (RATE_LIMIT.windowMs / 1000) ∧
    (middleware RATE_LIMIT 5 "/api/x" none none
      (setRecord emptyStore "rate_limit:unknown"
        { count := 100, resetTime := 60000 })).1.limitHeader =
      some RATE_LIMIT.maxRequests ∧
    (middleware RATE_LIMIT 5 "/api/x" none none
      (setRecord emptyStore "rate_limit:unknown"
        { count := 100, resetTime := 60000 })).1.remainingHeader = some 0 ∧
    (middleware RATE_LIMIT 5 "/api/x" none none
      (setRecord emptyStore "rate_limit:unknown"
        { count := 100, resetTime := 60000 })).1.resetHeader =
      some (5 + RATE_LIMIT.windowMs) :=
  C6_reject_response 5 "/api/x" none none
    (setRecord emptyStore "rate_limit:unknown" { count := 100, resetTime := 60000 })
    (by decide) (by decide)

/-- C7 counterexample: with `windowMs = 100`, `maxRequests = 1` and a live
full record whose window has `resetTime = 100`, the evaluation at time 50
rejects, but the reported reset value is `50 + 100 = 150`, not the
evaluated window's `resetTime = 100` — refuting the claim that the
reported `resetTime` is always that of the window the decision was
evaluated against. -/
theorem C7_counterexample :
    (evaluate ⟨100, 1, false⟩ 50 "k"
      (setRecord emptyStore "k" { count := 1, resetTime := 100 })).1.admitted = false ∧
    (setRecord emptyStore "k" { count := 1, resetTime := 100 }) "k" =
      some { count := 1, resetTime := 100 } ∧
    (evaluate ⟨100, 1, false⟩ 50 "k"
      (setRecord emptyStore "k" { count := 1, resetTime := 100 })).1.resetTime ≠ 100 := by
  exact ⟨by decide, by decide, by decide⟩

/-- C7 (amended): every evaluation returns exactly one of admitted or
rejected; when it admits, the reported remaining value lies in
`[0, maxRequests - 1]` and the reported reset time is the `resetTime` of
the record of the window the decision was evaluated against; when it
rejects, the reported remaining value is 0 and the reported reset time is
the static `now + windowMs`. -/
theorem C7_decision_postconditions (cfg : RateLimitConfig) (now : Nat)
    (key : String) (s : Store) :
    ((evaluate cfg now key s).1.admitted = true ∨
      (evaluate cfg now key s).1.admitted = false) ∧
    ((evaluate cfg now key s).1.admitted = true →
      (evaluate cfg now key s).1.remaining ≤ cfg.maxRequests - 1 ∧
      ∃ r, (evaluate cfg now key s).2 key = some r ∧
        (evaluate cfg now key s).1.resetTime = r.resetTime) ∧
    ((evaluate cfg now key s).1.admitted = false →
      (evaluate cfg now key s).1.remaining = 0 ∧
      (evaluate cfg now key s).1.resetTime = now + cfg.windowMs) := by
  cases hA : s key with
  | none =>
    rw [evaluate_none cfg now key s hA]
    refine ⟨Or.inl rfl, fun _ => ⟨?_, _, setRecord_self s key _, rfl⟩,
      fun hfalse => Bool.noConfusion hfalse⟩
    show cfg.maxRequests - 1 ≤ cfg.maxRequests - 1
    omega
  | some r =>
    by_cases hx : r.resetTime < now
    · rw [evaluate_expired cfg now key s r hA hx]
      refine ⟨Or.inl rfl, fun _ => ⟨?_, _, setRecord_self s key _, rfl⟩,
        fun hfalse => Bool.noConfusion hfalse⟩
      show cfg.maxRequests - 1 ≤ cfg.maxRequests - 1
      omega
    · by_cases hc : cfg.maxRequests ≤ r.count
      · rw [evaluate_full cfg now key s r hA (by omega) hc]
        exact ⟨Or.inr rfl, fun htrue => Bool.noConfusion htrue,
          fun _ => ⟨rfl, rfl⟩⟩
      · rw [evaluate_incr cfg now key s r hA (by omega) (by omega)]
        refine ⟨Or.inl rfl, fun _ => ⟨?_, _, setRecord_self s key _, rfl⟩,
          fun hfalse => Bool.noConfusion hfalse⟩
        show cfg.maxRequests - (r.count + 1) ≤ cfg.maxRequests - 1
        omega

/-- Witness for C7 on an admitted evaluation from the empty store. -/
theorem C7_witness :
    (evaluate RATE_LIMIT 0 "k" emptyStore).1.remaining ≤
      RATE_LIMIT.maxRequests - 1 :=
  ((C7_decision_postconditions RATE_LIMIT 0 "k" emptyStore).2.1 (by decide)).1

/-- C8: per-evaluation record invariants. While a record's window is live
the evaluation keeps its `resetTime` and never decreases its count; a
fresh record `{count := 1, resetTime := now + windowMs}` is installed when
the key's record is absent or expired; and the records of all other keys
are untouched (each key has the single record stored under it). -/
theorem C8_record_invariants (cfg : RateLimitConfig) (now : Nat)
    (key k2 : String) (s : Store) (r : WindowRecord) :
    (s key = some r → now ≤ r.resetTime →
      ∃ c2, (evaluate cfg now key s).2 key =
          some { count := c2, resetTime := r.resetTime } ∧ r.count ≤ c2) ∧
    (s key = none ∨ (s key = some r ∧ r.resetTime < now) →
      (evaluate cfg now key s).2 key =
        some { count := 1, resetTime := now + cfg.windowMs }) ∧
    (k2 ≠ key → (evaluate cfg now key s).2 k2 = s k2) := by
  refine ⟨?_, ?_, fun h => evaluate_store_other cfg now key s k2 h⟩
  · intro h hlive
    by_cases hc : cfg.maxRequests ≤ r.count
    · rw [evaluate_full cfg now key s r h hlive hc]
      refine ⟨r.count, ?_, Nat.le_refl _⟩
      show s key = some { count := r.count, resetTime := r.resetTime }
      rw [h]
    · rw [evaluate_incr cfg now key s r h hlive (by omega)]
      exact ⟨r.count + 1, setRecord_self s key _, by omega⟩
  · intro h
    rcases h with h | ⟨h, hx⟩
    · rw [evaluate_none cfg now key s h]
      exact setRecord_self s key _
    · rw [evaluate_expired cfg now key s r h hx]
      exact setRecord_self s key _

/-- Witness for C8: a first evaluation at time 3 installs a fresh record. -/
theorem C8_witness :
    (evaluate RATE_LIMIT 3 "k" emptyStore).2 "k" =
      some { count := 1, resetTime := 3 + RATE_LIMIT.windowMs } :=
  (C8_record_invariants RATE_LIMIT 3 "k" "j" emptyStore
    { count := 1, resetTime := 0 }).2.1 (Or.inl rfl)

/-- C9: whenever `isRateLimited` answers false (the request is admitted),
the store afterwards holds a record for the key, so the middleware's
admitted-path lookup always finds a record and the admitted response
always carries the three X-RateLimit headers. -/
theorem C9_admitted_has_record (cfg : RateLimitConfig) (now : Nat)
    (path : String) (f ip : Option String) (s : Store)
    (hapi : isApiPath path = true)
    (hadm : (isRateLimited cfg now (getRateLimitKey f ip) s).1 = false) :
    (∃ r, (isRateLimited cfg now (getRateLimitKey f ip) s).2
        (getRateLimitKey f ip) = some r) ∧
    (middleware cfg now path f ip s).1.limitHeader = some cfg.maxRequests ∧
    (middleware cfg now path f ip s).1.remainingHeader.isSome = true ∧
    (middleware cfg now path f ip s).1.resetHeader.isSome = true := by
  obtain ⟨r, hr⟩ := isRateLimited_false_some cfg now (getRateLimitKey f ip) s hadm
  refine ⟨⟨r, hr⟩, ?_⟩
  simp only [middleware, hapi, if_true, hadm, hr]
  exact ⟨rfl, rfl, rfl⟩

/-- Witness for C9: an admitted request from the empty store on `/api/a`
carries the three X-RateLimit headers. -/
theorem C9_witness :
    (middleware RATE_LIMIT 0 "/api/a" none none emptyStore).1.limitHeader =
      some RATE_LIMIT.maxRequests ∧
    (middleware RATE_LIMIT 0 "/api/a" none none emptyStore).1.remainingHeader.isSome
      = true ∧
    (middleware RATE_LIMIT 0 "/api/a" none none emptyStore).1.resetHeader.isSome
      = true :=
  (C9_admitted_has_record RATE_LIMIT 0 "/api/a" none none emptyStore
    (by decide) (by decide)).2

/-- C10: every record ever stored by any sequence of calls starting from
the empty store has `1 ≤ count ≤ maxRequests` (for a positive configured
maximum): counts start at 1 and are only incremented while strictly below
the maximum. -/
theorem C10_count_bounds (cfg : RateLimitConfig) (hM : 1 ≤ cfg.maxRequests)
    (steps : List (Nat × String)) (k : String) (r : WindowRecord)
    (hk : runSteps cfg steps emptyStore k = some r) :
    1 ≤ r.count ∧ r.count ≤ cfg.maxRequests :=
  runSteps_preserves_inv cfg hM steps emptyStore (emptyStore_inv cfg) k r hk

/-- Witness for C10: two calls for key `k` from the empty store leave the
record `{count := 2, resetTime := 60000}`, whose count is within bounds. -/
theorem C10_witness :
    1 ≤ ({ count := 2, resetTime := 60000 } : WindowRecord).count ∧
    ({ count := 2, resetTime := 60000 } : WindowRecord).count ≤
      RATE_LIMIT.maxRequests :=
  C10_count_bounds RATE_LIMIT (by decide) [(0, "k"), (1, "k")] "k"
    { count := 2, resetTime := 60000 } (by decide)
